import Mathlib

/-!
# Verification of the MultiPing polling engine and renderers

A shallow embedding of `src/MultiPing/cli.py`.  Python floats that the
program obtains by parsing decimal text (latency, packet loss, file
modification times) are modelled as exact decimal numbers `Dec`
(a mantissa together with a power-of-ten denominator); Python strings are
modelled as `String` / `List Char` with ASCII character classes; Python
dicts are modelled as association lists with insertion-order semantics
(`dictInsert` updates in place, appends new keys), matching CPython.
Fallible steps (name resolution, launching the subprocess, `float`
conversion) are explicit inputs or `Option`/sum results.
-/

namespace MultiPing

/-- `10 ^ e` as an integer, used as the denominator of decimal numbers. -/
def pow10 (e : Nat) : Int := Int.ofNat (10 ^ e)

/-- An exact decimal number `mant / 10 ^ exp`, the model of the Python
floats occurring in the program (they all come from parsing decimal text
or from literals such as `100.0` and `0.5`). -/
structure Dec where
  mant : Int
  exp : Nat
  deriving DecidableEq

/-- Numeric equality of decimals, the model of Python `==` on floats. -/
abbrev Dec.eqv (a b : Dec) : Prop := a.mant * pow10 b.exp = b.mant * pow10 a.exp

/-- Numeric strict order on decimals, the model of Python `<` on floats. -/
abbrev Dec.lt (a b : Dec) : Prop := a.mant * pow10 b.exp < b.mant * pow10 a.exp

/-- Numeric non-strict order on decimals. -/
abbrev Dec.le (a b : Dec) : Prop := a.mant * pow10 b.exp ≤ b.mant * pow10 a.exp

/-- The decimal `n.0`. -/
def Dec.ofNat (n : Nat) : Dec := ⟨Int.ofNat n, 0⟩

/-- The literal `0.5` from the rate limit in `display_results_live`. -/
def Dec.half : Dec := ⟨5, 1⟩

/-- Exact difference of two decimals (`a - b`). -/
def Dec.sub (a b : Dec) : Dec := ⟨a.mant * pow10 b.exp - b.mant * pow10 a.exp, a.exp + b.exp⟩

/-- The value of a decimal as a rational number. -/
def Dec.val (a : Dec) : ℚ := (a.mant : ℚ) / ((10 : ℚ) ^ a.exp)

/-! ## String helpers (Python `str` operations on ASCII text) -/

/-- Python `str.strip()` whitespace class, restricted to ASCII. -/
def pySpace (c : Char) : Bool :=
  c == ' ' || c == '\t' || c == '\n' || c == '\x0d' || c == '\x0b' || c == '\x0c'

/-- Python `str.strip()`: drop leading and trailing whitespace. -/
def pyStrip (l : List Char) : List Char :=
  ((l.dropWhile pySpace).reverse.dropWhile pySpace).reverse

/-- Digits of a decimal numeral, most significant first, as a number. -/
def natOfDigits (l : List Char) : Nat :=
  l.foldl (fun acc c => acc * 10 + (c.toNat - '0'.toNat)) 0

/-- The decimal digit characters of `n` (via the standard numeral printer). -/
def natChars (n : Nat) : List Char := (Nat.repr n).data

/-- Split a character list at every `'.'` (Python `str.split('.')`). -/
def splitDots : List Char → List (List Char)
  | [] => [[]]
  | c :: r =>
    if c = '.' then [] :: splitDots r
    else
      match splitDots r with
      | p :: ps => (c :: p) :: ps
      | [] => [[c]]

/-- Python `int(s)` on a part of an IP-shaped string: succeeds exactly on a
nonempty all-digit string (a `ValueError` is `none`). -/
def parseIntPart (l : List Char) : Option Nat :=
  if l ≠ [] ∧ l.all Char.isDigit then some (natOfDigits l) else none

/-! ## `ip_to_int` (cli.py lines 65-75) and the display sort -/

/-- `ip_to_int`: for a string consisting only of digits and dots with exactly
three dots whose four parts parse as integers, the value
`(a<<24)+(b<<16)+(c<<8)+d`; otherwise `float('inf')`, modelled as `none`
(which sorts after every number). -/
def ip_to_int (ip : String) : Option Nat :=
  let l := ip.data
  if (l.all fun c => c.isDigit || c == '.') && (l.count '.' == 3) then
    match (splitDots l).mapM parseIntPart with
    | some [a, b, c, d] => some (a * 2 ^ 24 + b * 2 ^ 16 + c * 2 ^ 8 + d)
    | _ => none
  else none

/-- Order on sort keys: numbers ascending, `float('inf')` (`none`) last. -/
def keyLe : Option Nat → Option Nat → Prop
  | _, none => True
  | none, some _ => False
  | some a, some b => a ≤ b

instance : DecidableRel keyLe := by
  intro a b
  cases a <;> cases b <;> simp [keyLe] <;> infer_instance

/-- The comparison `sorted(hosts, key=ip_to_int)` sorts by. -/
def ipLe (a b : String) : Prop := keyLe (ip_to_int a) (ip_to_int b)

instance : DecidableRel ipLe := by
  intro a b
  unfold ipLe
  infer_instance

instance : IsTotal String ipLe := by
  constructor
  intro a b
  unfold ipLe
  cases ip_to_int a <;> cases ip_to_int b <;> simp [keyLe] <;> omega

instance : IsTrans String ipLe := by
  constructor
  intro a b c
  unfold ipLe
  cases ip_to_int a <;> cases ip_to_int b <;> cases ip_to_int c <;> simp [keyLe] <;> omega

/-- `sorted(hosts, key=ip_to_int)`: Python's `sorted` is a stable sort by
the key, modelled by the (stable) insertion sort on the key order. -/
def sortHosts (l : List String) : List String := List.insertionSort ipLe l

/-- The class of hosts whose key is `float('inf')` (not IPv4-shaped). -/
def nonIp (s : String) : Bool := (ip_to_int s).isNone

/-! ## Parsing the ping output (cli.py lines 205-224)

The two regular expressions of `ping_host` are implemented directly:
`time[=<]([0-9.]+)` (all matches, `re.findall`) and
`(\d+(?:\.\d+)?)% packet loss` (first match, `re.search`).  Both regexes
are deterministic on their alphabet, so a greedy left-to-right scan is
exact. -/

/-- The character class `[0-9.]`. -/
def isDigitDot (c : Char) : Bool := c.isDigit || c == '.'

/-- Python `'sub' in s` (substring test). -/
def containsSub (pat : List Char) : List Char → Bool
  | [] => pat.isPrefixOf []
  | c :: cs => pat.isPrefixOf (c :: cs) || containsSub pat cs

/-- Python `float(tok)` for a token drawn from `[0-9.]+`: succeeds exactly
when the token has at least one digit and at most one dot; the value is
the exact decimal. -/
def parsePyFloat (l : List Char) : Option Dec :=
  if l.all isDigitDot then
    match splitDots l with
    | [i] => if i = [] then none else some ⟨Int.ofNat (natOfDigits i), 0⟩
    | [i, f] =>
      if i ++ f = [] then none
      else some ⟨Int.ofNat (natOfDigits (i ++ f)), f.length⟩
    | _ => none
  else none

/-- One attempt of `time[=<]([0-9.]+)` anchored at the head: on success,
the captured token and the remaining input after the match. -/
def latMatchAt : List Char → Option (List Char × List Char)
  | 't' :: 'i' :: 'm' :: 'e' :: s :: rest =>
    if s = '=' ∨ s = '<' then
      let run := rest.takeWhile isDigitDot
      if run = [] then none else some (run, rest.drop run.length)
    else none
  | _ => none

/-- `re.findall` for `time[=<]([0-9.]+)`: non-overlapping matches, left to
right.  The fuel argument starts at the input length; each step consumes
at least one character, so fuel never runs out. -/
def latFindallAux : Nat → List Char → List (List Char)
  | 0, _ => []
  | _ + 1, [] => []
  | n + 1, c :: cs =>
    match latMatchAt (c :: cs) with
    | some (cap, rest) => cap :: latFindallAux n rest
    | none => latFindallAux n cs

/-- All captures of `time[=<]([0-9.]+)` in the ping output. -/
def latFindall (l : List Char) : List (List Char) := latFindallAux l.length l

/-- The literal tail `% packet loss` of the packet-loss regex. -/
def plLit : List Char := "% packet loss".data

/-- One attempt of `(\d+(?:\.\d+)?)% packet loss` anchored at the head.
The regex is deterministic here: `\d+` is forced maximal, the optional
fraction is taken exactly when a dot with at least one digit follows, and
no backtracking alternative can succeed when the literal then fails. -/
def plMatchAt (l : List Char) : Option Dec :=
  let d1 := l.takeWhile Char.isDigit
  if d1 = [] then none
  else
    match l.drop d1.length with
    | '.' :: r2 =>
      let d2 := r2.takeWhile Char.isDigit
      if d2 = [] then none
      else if plLit.isPrefixOf (r2.drop d2.length) then
        some ⟨Int.ofNat (natOfDigits (d1 ++ d2)), d2.length⟩
      else none
    | r1 => if plLit.isPrefixOf r1 then some ⟨Int.ofNat (natOfDigits d1), 0⟩ else none

/-- `re.search` for `(\d+(?:\.\d+)?)% packet loss`: leftmost match. -/
def plSearch : List Char → Option Dec
  | [] => none
  | c :: cs =>
    match plMatchAt (c :: cs) with
    | some v => some v
    | none => plSearch cs

/-! ## The prober `ping_host` (cli.py lines 172-237) -/

/-- The `status` values a result dictionary can carry. -/
inductive Status
  | unknown
  | up
  | down
  | error
  deriving DecidableEq

/-- The result dictionary built by `ping_host`; its six fields are the six
keys `host`, `status`, `latency`, `timestamp`, `message`, `packet_loss`
that every returned dictionary contains. -/
structure Record where
  host : String
  status : Status
  latency : Option Dec
  timestamp : Nat
  message : String
  packet_loss : Dec
  deriving DecidableEq

/-- Outcome of `socket.gethostbyname(host)`: success, `socket.gaierror`,
or some other exception (caught by the outer `except Exception`). -/
inductive ResolveOutcome
  | ok
  | gaierror
  | raised (msg : String)
  deriving DecidableEq

/-- Observable outcome of the ping subprocess. -/
structure SubOutcome where
  returncode : Int
  stdout : List Char
  stderr : List Char
  deriving DecidableEq

/-- Everything the environment decides during one `ping_host` call:
name resolution, a possible exception between resolution and
`process.communicate()` (building the command or launching the process),
and the subprocess outcome when one runs. -/
structure ProbeEnv where
  resolve : ResolveOutcome
  launch : Option String
  sub : SubOutcome
  deriving DecidableEq

/-- The freshly initialised result dictionary (cli.py lines 175-182):
status `'unknown'`, no latency, empty message, packet loss `100.0`. -/
def initRecord (host : String) (ts : Nat) : Record :=
  ⟨host, Status.unknown, none, ts, "", Dec.ofNat 100⟩

/-- The latency-extraction step (cli.py lines 210-214): when the output
mentions `time=` or `time<`, `float()` of the last capture; a `ValueError`
there is caught by the outer handler. -/
def latencyStep (out : List Char) : Except String (Option Dec) :=
  if containsSub "time=".data out || containsSub "time<".data out then
    match (latFindall out).getLast? with
    | none => Except.ok none
    | some tok =>
      match parsePyFloat tok with
      | some v => Except.ok (some v)
      | none => Except.error (String.mk ("could not convert string to float: ".data ++ tok))
  else Except.ok none

/-- `ping_host` (cli.py lines 172-237).  The second component records
whether the ping subprocess was consulted at all (`False` on the
resolution-failure short-circuit and on a pre-launch exception).
Mutations of the Python dictionary are threaded through the record. -/
def ping_host (host : String) (ts : Nat) (env : ProbeEnv) : Record × Bool :=
  let r0 := initRecord host ts
  match env.resolve with
  | ResolveOutcome.gaierror =>
    ({ r0 with status := Status.error, message := "Cannot resolve hostname" }, false)
  | ResolveOutcome.raised m =>
    ({ r0 with status := Status.error, message := m }, false)
  | ResolveOutcome.ok =>
    match env.launch with
    | some m => ({ r0 with status := Status.error, message := m }, false)
    | none =>
      if env.sub.returncode = 0 then
        let r1 := { r0 with status := Status.up }
        match latencyStep env.sub.stdout with
        | Except.error m => ({ r1 with status := Status.error, message := m }, true)
        | Except.ok lat =>
          let r2 := { r1 with latency := lat }
          match plSearch env.sub.stdout with
          | none => (r2, true)
          | some pl =>
            let r3 := { r2 with packet_loss := pl }
            if Dec.eqv pl (Dec.ofNat 100) then
              ({ r3 with status := Status.down }, true)
            else (r3, true)
      else
        if env.sub.stderr ≠ [] then
          ({ r0 with status := Status.down,
                     message := String.mk (pyStrip env.sub.stderr) }, true)
        else
          ({ r0 with status := Status.down, message := "Host is unreachable" }, true)

/-! ## Python dictionaries as insertion-ordered association lists -/

/-- `d[k] = v` on a Python dict: update an existing key in place,
otherwise append (CPython insertion-order semantics). -/
def dictInsert {V : Type} : List (String × V) → String → V → List (String × V)
  | [], k, v => [(k, v)]
  | (k0, v0) :: rest, k, v =>
    if k0 = k then (k0, v) :: rest else (k0, v0) :: dictInsert rest k v

/-- `d.get(k)` / `k in d`. -/
def dictGet {V : Type} : List (String × V) → String → Option V
  | [], _ => none
  | (k0, v0) :: rest, k => if k0 = k then some v0 else dictGet rest k

/-- `d.get(k, dflt)`. -/
def dictGetD {V : Type} (d : List (String × V)) (k : String) (dflt : V) : V :=
  (dictGet d k).getD dflt

/-! ## The probe loop body of `ping_worker` (cli.py lines 250-255) -/

/-- One probe cycle: for each host of the current list, in order, probe it
and store the result under the host key (`results[host] = result`). -/
def runCycle (hostsL : List String) (env : String → ProbeEnv) (ts : Nat)
    (res : List (String × Record)) : List (String × Record) :=
  hostsL.foldl (fun acc h => dictInsert acc h (ping_host h ts (env h)).1) res

/-- The ways one probe can fail: resolution failure, an exception before
the subprocess result is read (command building or process launch), a
failed/timed-out ping (non-zero exit), or the `float()` conversion
exception while parsing the latency. -/
def probeFailed (e : ProbeEnv) : Prop :=
  e.resolve ≠ ResolveOutcome.ok ∨ e.launch ≠ none ∨ e.sub.returncode ≠ 0
    ∨ (∃ m, latencyStep e.sub.stdout = Except.error m)

/-! ## `read_hosts_from_file` (cli.py lines 140-170) -/

/-- Python `line.split(':', 1)`: the part before the first colon and the
rest. -/
def splitFirstColon : List Char → List Char × List Char
  | [] => ([], [])
  | c :: r =>
    if c = ':' then ([], r)
    else
      let p := splitFirstColon r
      (c :: p.1, p.2)

/-- The parsing loop of `read_hosts_from_file`: strip each line, skip blank
lines and `#` comments, treat `name:host` lines as a named host (the name
map entry is overwritten on a repeated host), and bare lines as hosts. -/
def parseLinesAux : List (List Char) → List String → List (String × String) →
    List String × List (String × String)
  | [], hs, ns => (hs, ns)
  | line :: rest, hs, ns =>
    let l := pyStrip line
    if l = [] then parseLinesAux rest hs ns
    else if ['#'].isPrefixOf l then parseLinesAux rest hs ns
    else if l.contains ':' then
      let nh := splitFirstColon l
      let host := String.mk (pyStrip nh.2)
      parseLinesAux rest (hs ++ [host]) (dictInsert ns host (String.mk (pyStrip nh.1)))
    else parseLinesAux rest (hs ++ [String.mk l]) ns

/-- Parse the lines of a devices file into the host list and name map. -/
def parseLines (lines : List (List Char)) : List String × List (String × String) :=
  parseLinesAux lines [] []

/-- What `read_hosts_from_file` can do: return the parse, or terminate via
`sys.exit(1)` (on any exception while reading, or when no hosts parse). -/
inductive ReadOutcome
  | exited
  | ok (hosts : List String) (names : List (String × String))
  deriving DecidableEq

/-- `read_hosts_from_file`: `ioErr` is an exception raised while opening or
reading the file (its handler prints and calls `sys.exit(1)`). -/
def read_hosts_from_file (lines : List (List Char)) (ioErr : Bool) : ReadOutcome :=
  if ioErr then ReadOutcome.exited
  else
    let p := parseLines lines
    if p.1 = [] then ReadOutcome.exited else ReadOutcome.ok p.1 p.2

/-- `list(dict.fromkeys(hosts))` in `main`/`curses_main`: remove duplicates
keeping the first occurrence of each host, preserving order. -/
def dedupFirstAux (seen : List String) : List String → List String
  | [] => []
  | x :: xs =>
    if seen.contains x then dedupFirstAux seen xs
    else x :: dedupFirstAux (x :: seen) xs

/-- Startup deduplication of the host list. -/
def dedupFirst (l : List String) : List String := dedupFirstAux [] l

/-- Python `==` on dicts: same keys with equal values (order-insensitive). -/
def dictEqB {V : Type} [DecidableEq V] (a b : List (String × V)) : Bool :=
  (a.all fun kv => dictGet b kv.1 == some kv.2)
    && (b.all fun kv => dictGet a kv.1 == some kv.2)

/-! ## `check_file_changes` (cli.py lines 99-138) -/

/-- The mutable module state `check_file_changes` reads and writes. -/
structure AppState where
  hosts : List String
  host_names : List (String × String)
  results : List (String × Record)
  last_file_mtime : Dec
  deriving DecidableEq

/-- What the file system presents during one `check_file_changes` call:
whether a devices file is configured and currently exists, the result of
`os.path.getmtime` (`none` models an `OSError`, which the function
catches), and the file content / read failure for `read_hosts_from_file`. -/
structure FileObs where
  fileConfigured : Bool
  fileExists : Bool
  mtime : Option Dec
  lines : List (List Char)
  ioErr : Bool
  deriving DecidableEq

/-- How one `check_file_changes` call ends: a silent return, the
`NameError` raised by the notification print (line 132 references the
undefined variable `added_hosts` whenever the content changed — the
mutations of lines 117-126 have already happened), or thread termination
by the uncaught `SystemExit` from `read_hosts_from_file`. -/
inductive FCOutcome
  | noChange
  | nameError
  | exited
  deriving DecidableEq

/-- `check_file_changes`: poll the devices file and reload on change. -/
def check_file_changes (st : AppState) (obs : FileObs) : AppState × FCOutcome :=
  if obs.fileConfigured = false ∨ obs.fileExists = false then (st, FCOutcome.noChange)
  else
    match obs.mtime with
    | none => (st, FCOutcome.noChange)
    | some m =>
      if Dec.lt st.last_file_mtime m then
        let st1 := { st with last_file_mtime := m }
        match read_hosts_from_file obs.lines obs.ioErr with
        | ReadOutcome.exited => (st1, FCOutcome.exited)
        | ReadOutcome.ok nh nn =>
          if nh ≠ st.hosts ∨ dictEqB nn st.host_names = false then
            ({ st1 with hosts := nh, host_names := nn,
                        results := st1.results.filter fun kv => nh.contains kv.1 },
             FCOutcome.nameError)
          else (st1, FCOutcome.noChange)
      else (st, FCOutcome.noChange)

/-! ## Rendering helpers shared by the display functions

Terminal output is modelled as a list of printed lines, each a list of
characters; the colorama constants are their ANSI escape strings. -/

/-- `Fore.GREEN`. -/
def foreGreen : List Char := "\x1b[32m".data

/-- `Fore.RED`. -/
def foreRed : List Char := "\x1b[31m".data

/-- `Fore.YELLOW`. -/
def foreYellow : List Char := "\x1b[33m".data

/-- `Fore.WHITE`. -/
def foreWhite : List Char := "\x1b[37m".data

/-- `Style.RESET_ALL`. -/
def styleReset : List Char := "\x1b[0m".data

/-- Python `f"{s:<n}"`: left-justify by padding with spaces (never
truncates). -/
def padTo (l : List Char) (n : Nat) : List Char :=
  l ++ List.replicate (n - l.length) ' '

/-- `status.upper()`. -/
def statusUpper : Status → List Char
  | Status.up => "UP".data
  | Status.down => "DOWN".data
  | Status.error => "ERROR".data
  | Status.unknown => "UNKNOWN".data

/-- `status_color` (cli.py lines 260-269). -/
def status_color : Status → List Char
  | Status.up => foreGreen
  | Status.down => foreRed
  | Status.error => foreYellow
  | Status.unknown => foreWhite

/-- Drop trailing `'0'` characters (float repr never keeps them). -/
def trimZeros (l : List Char) : List Char :=
  (l.reverse.dropWhile fun c => c == '0').reverse

/-- `str(float)` for a nonnegative exact decimal `m / 10 ^ e`: the decimal
digits with the point placed `e` from the right, trailing zeros trimmed,
at least one digit on each side (`100.0`, `0.5`, `12.3`). -/
def pyFloatCharsNat (m e : Nat) : List Char :=
  let ds := natChars m
  let padded := if ds.length ≤ e then List.replicate (e + 1 - ds.length) '0' ++ ds else ds
  let ip := padded.take (padded.length - e)
  let fr := trimZeros (padded.drop (padded.length - e))
  ip ++ '.' :: (if fr = [] then ['0'] else fr)

/-- `str(float)` on an exact decimal. -/
def pyFloatChars (d : Dec) : List Char :=
  match d.mant with
  | Int.ofNat m => pyFloatCharsNat m d.exp
  | Int.negSucc m => '-' :: pyFloatCharsNat (m + 1) d.exp

/-- Round `num / den` (with `den > 0`) to the nearest integer, ties to
even — the rounding of Python's `format(x, '.1f')`. -/
def roundHalfEven (num den : Int) : Int :=
  let q := Int.fdiv num den
  let r := num - q * den
  if 2 * r < den then q
  else if den < 2 * r then q + 1
  else if q % 2 = 0 then q else q + 1

/-- `f"{x:.1f}"`: one digit after the point. -/
def fmt1Chars (d : Dec) : List Char :=
  let n := roundHalfEven (d.mant * 10) (pow10 d.exp)
  match n with
  | Int.ofNat k => natChars (k / 10) ++ '.' :: [Nat.digitChar (k % 10)]
  | Int.negSucc k => '-' :: (natChars ((k + 1) / 10) ++ '.' :: [Nat.digitChar ((k + 1) % 10)])

/-- `format_latency` (cli.py lines 271-279). -/
def format_latency : Option Dec → List Char
  | none => "N/A".data
  | some v =>
    if Dec.lt v (Dec.ofNat 1) then "<1 ms".data else fmt1Chars v ++ " ms".data

/-- `sum(1 for r in results.values() if r['status'] == s)`. -/
def countStatus (res : List (String × Record)) (s : Status) : Nat :=
  (res.filter fun kv => kv.2.status == s).length

/-! ## `display_results_detailed` (cli.py lines 315-346) -/

/-- The summary line `[{now}] UP:n DOWN:n ERROR:n` with its colour codes;
`ts` is the `datetime.now().strftime('%H:%M:%S')` text. -/
def summaryLine (ts : List Char) (res : List (String × Record)) : List Char :=
  '[' :: ts ++ "] ".data
    ++ foreGreen ++ "UP:".data ++ natChars (countStatus res Status.up) ++ styleReset
    ++ ' ' :: foreRed ++ "DOWN:".data ++ natChars (countStatus res Status.down) ++ styleReset
    ++ ' ' :: foreYellow ++ "ERROR:".data ++ natChars (countStatus res Status.error)
    ++ styleReset

/-- One detail row (cli.py lines 329-343). -/
def detailRow (names : List (String × String)) (res : List (String × Record))
    (host : String) : List Char :=
  let name := (dictGetD names host host).data
  match dictGet res host with
  | some r =>
    "  ".data ++ padTo name 15 ++ ' ' :: padTo host.data 15
      ++ ' ' :: padTo (status_color r.status ++ statusUpper r.status ++ styleReset) 6
      ++ ' ' :: padTo (format_latency r.latency) 8
      ++ ' ' :: (pyFloatChars r.packet_loss ++ "%".data)
  | none =>
    "  ".data ++ padTo name 15 ++ ' ' :: padTo host.data 15
      ++ ' ' :: padTo "WAITING".data 6 ++ ' ' :: padTo "N/A".data 8 ++ ' ' :: "N/A".data

/-- `display_results_detailed`: prints nothing when the results table is
empty, otherwise the timestamped summary line, one row per host in
display order, and a blank line. -/
def display_results_detailed (ts : List Char) (hostsL : List String)
    (names : List (String × String)) (res : List (String × Record)) : List (List Char) :=
  if res = [] then []
  else summaryLine ts res :: (sortHosts hostsL).map (detailRow names res) ++ [[]]

/-! ## `display_results_live` (cli.py lines 381-496) -/

/-- The free-floating render state of the live display
(`_live_header_printed`, `_last_display_time`, `_display_counter`,
`_device_lines`). -/
structure LiveState where
  headerPrinted : Bool
  lastDisplay : Dec
  counter : Nat
  deviceLines : List (List Char)
  deriving DecidableEq

/-- What one invocation of the live display prints: the one-off header
block, nothing (rate-limited no-op), nothing (results still empty), or
the in-place rewrite of the device rows plus the summary counts. -/
inductive LiveOut
  | header (lines : List (List Char))
  | noop
  | idle
  | updated (rows : List (List Char)) (upC downC errC : Nat)
  deriving DecidableEq

/-- The name shown by the live display: truncated to 11 chars plus `...`
when longer than 14. -/
def liveName (names : List (String × String)) (host : String) : List Char :=
  let n := (dictGetD names host host).data
  if n.length > 14 then n.take 11 ++ "...".data else n

/-- A live placeholder row (cli.py line 410). -/
def liveWaitingRow (names : List (String × String)) (host : String) : List Char :=
  padTo (liveName names host) 15 ++ ' ' :: padTo host.data 18
    ++ ' ' :: padTo "WAITING".data 8 ++ ' ' :: padTo "N/A".data 10
    ++ ' ' :: padTo "N/A".data 12

/-- The placeholder rows, one per host, in display order. -/
def liveWaitingRows (hostsL : List String) (names : List (String × String)) :
    List (List Char) :=
  (sortHosts hostsL).map (liveWaitingRow names)

/-- The header block printed exactly once (cli.py lines 394-416). -/
def liveHeaderLines (hostsL : List String) (names : List (String × String)) :
    List (List Char) :=
  [] :: List.replicate 80 '='
    :: "MultiPing - Live Network Monitor".data
    :: List.replicate 80 '='
    :: (padTo "NAME".data 15 ++ ' ' :: padTo "HOST".data 18 ++ ' ' :: padTo "STATUS".data 8
          ++ ' ' :: padTo "LATENCY".data 10 ++ ' ' :: padTo "PACKET LOSS".data 12)
    :: List.replicate 80 '='
    :: liveWaitingRows hostsL names
    ++ [List.replicate 80 '-', "Last Update: Initializing...".data]

/-- One rewritten device row (cli.py lines 444-477); note the live
renderer labels any record that is neither up nor down as `ERROR` and
shows `N/A` for non-positive latencies. -/
def liveDataRow (names : List (String × String)) (res : List (String × Record))
    (host : String) : List Char :=
  match dictGet res host with
  | some r =>
    let latStr :=
      match r.latency with
      | some v =>
        if Dec.lt (Dec.ofNat 0) v then
          if Dec.lt v (Dec.ofNat 1) then "<1 ms".data else fmt1Chars v ++ " ms".data
        else "N/A".data
      | none => "N/A".data
    let cd : List Char × List Char :=
      match r.status with
      | Status.up => (foreGreen, "UP".data)
      | Status.down => (foreRed, "DOWN".data)
      | _ => (foreYellow, "ERROR".data)
    padTo (liveName names host) 15 ++ ' ' :: padTo host.data 18
      ++ ' ' :: (cd.1 ++ padTo cd.2 8 ++ styleReset)
      ++ ' ' :: padTo latStr 10 ++ ' ' :: padTo (pyFloatChars r.packet_loss ++ "%".data) 12
  | none => liveWaitingRow names host

/-- `display_results_live`, one invocation: print the header block on the
very first call; afterwards return without output when less than `0.5`
seconds passed since `_last_display_time`; otherwise advance the rate
limiter and, when results exist, rewrite in place the device rows (only
as many as `_device_lines` holds) and the summary counts. -/
def display_results_live (st : LiveState) (now : Dec) (hostsL : List String)
    (names : List (String × String)) (res : List (String × Record)) :
    LiveState × LiveOut :=
  if st.headerPrinted = false then
    ({ headerPrinted := true, lastDisplay := now, counter := st.counter,
       deviceLines := liveWaitingRows hostsL names },
     LiveOut.header (liveHeaderLines hostsL names))
  else if Dec.lt (Dec.sub now st.lastDisplay) Dec.half then (st, LiveOut.noop)
  else
    let st1 : LiveState :=
      { st with lastDisplay := now, counter := st.counter + 1 }
    if res = [] then (st1, LiveOut.idle)
    else
      let shown := (sortHosts hostsL).take st.deviceLines.length
      let rows := shown.map (liveDataRow names res)
      ({ st1 with deviceLines := rows ++ st.deviceLines.drop shown.length },
       LiveOut.updated rows (countStatus res Status.up) (countStatus res Status.down)
         (countStatus res Status.error))

/-- A sequence of live-display invocations, threading the render state. -/
def runLive (st : LiveState) :
    List (Dec × List String × List (String × String) × List (String × Record)) →
      List LiveOut
  | [] => []
  | x :: rest =>
    let step := display_results_live st x.1 x.2.1 x.2.2.1 x.2.2.2
    step.2 :: runLive step.1 rest

/-- The invocations that actually write to the screen. -/
def isLiveUpdate : LiveOut → Bool
  | LiveOut.header _ => true
  | LiveOut.updated _ _ _ _ => true
  | LiveOut.noop => false
  | LiveOut.idle => false

/-- The type of one live-display invocation's inputs: the clock reading
and the globals `hosts`, `host_names`, `results` as read at that call. -/
abbrev LiveIn :=
  Dec × List String × List (String × String) × List (String × Record)

/-! ## Theorems -/

theorem pow10_cast (e : Nat) : ((pow10 e : Int) : ℚ) = (10 : ℚ) ^ e := by
  unfold pow10
  rw [Int.ofNat_eq_natCast]
  push_cast
  ring

theorem pow10_pos (e : Nat) : (0 : ℚ) < ((10 : ℚ) ^ e) := by positivity

theorem Dec.lt_iff_val (a b : Dec) : Dec.lt a b ↔ a.val < b.val := by
  unfold Dec.lt Dec.val
  rw [div_lt_div_iff (pow10_pos a.exp) (pow10_pos b.exp)]
  rw [← pow10_cast a.exp, ← pow10_cast b.exp]
  constructor
  · intro h
    exact_mod_cast h
  · intro h
    exact_mod_cast h

theorem Dec.le_iff_val (a b : Dec) : Dec.le a b ↔ a.val ≤ b.val := by
  unfold Dec.le Dec.val
  rw [div_le_div_iff (pow10_pos a.exp) (pow10_pos b.exp)]
  rw [← pow10_cast a.exp, ← pow10_cast b.exp]
  constructor
  · intro h
    exact_mod_cast h
  · intro h
    exact_mod_cast h

theorem Dec.sub_val (a b : Dec) : (Dec.sub a b).val = a.val - b.val := by
  unfold Dec.sub Dec.val
  rw [div_sub_div _ _ (ne_of_gt (pow10_pos a.exp)) (ne_of_gt (pow10_pos b.exp))]
  rw [pow_add]
  push_cast [pow10_cast]
  ring_nf

theorem Dec.half_val : Dec.half.val = 1 / 2 := by
  unfold Dec.half Dec.val
  norm_num

theorem ipLe_of_none {a b : String} (h : ip_to_int a = none) :
    ipLe a b ↔ ip_to_int b = none := by
  unfold ipLe
  rw [h]
  cases hb : ip_to_int b <;> simp [keyLe]

theorem filter_nonIp_orderedInsert_pos (a : String) (m : List String)
    (ha : nonIp a = true) :
    (List.orderedInsert ipLe a m).filter nonIp = a :: m.filter nonIp := by
  have hnone : ip_to_int a = none := by
    simpa [nonIp, Option.isNone_iff_eq_none] using ha
  induction m with
  | nil => simp [List.orderedInsert, ha]
  | cons b m ih =>
    by_cases hab : ipLe a b
    · have hb : nonIp b = true := by
        simp [nonIp, Option.isNone_iff_eq_none, (ipLe_of_none hnone).mp hab]
      simp [List.orderedInsert, hab, ha, hb]
    · have hb : nonIp b = false := by
        rcases hx : ip_to_int b with _ | v
        · exact absurd ((ipLe_of_none hnone).mpr hx) hab
        · simp [nonIp, hx]
      simp [List.orderedInsert, hab, hb, ih]

theorem filter_nonIp_orderedInsert_neg (a : String) (m : List String)
    (ha : nonIp a = false) :
    (List.orderedInsert ipLe a m).filter nonIp = m.filter nonIp := by
  induction m with
  | nil => simp [List.orderedInsert, ha]
  | cons b m ih =>
    by_cases hab : ipLe a b
    · simp [List.orderedInsert, hab, ha]
    · rw [List.orderedInsert, if_neg hab]
      cases hb : nonIp b with
      | true => rw [List.filter_cons_of_pos hb, List.filter_cons_of_pos hb, ih]
      | false =>
        rw [List.filter_cons_of_neg, List.filter_cons_of_neg]
        · exact ih
        · simp [hb]
        · simp [hb]

theorem filter_nonIp_sortHosts (l : List String) :
    (sortHosts l).filter nonIp = l.filter nonIp := by
  unfold sortHosts
  induction l with
  | nil => rfl
  | cons x l ih =>
    show (List.orderedInsert ipLe x (List.insertionSort ipLe l)).filter nonIp = _
    cases hx : nonIp x with
    | true => rw [filter_nonIp_orderedInsert_pos _ _ hx, ih, List.filter_cons_of_pos hx]
    | false => rw [filter_nonIp_orderedInsert_neg _ _ hx, ih, List.filter_cons_of_neg]
               simp [hx]

/-- C3: sorting a host list with key `ip_to_int` (as `display_results_detailed`
and the other renderers do) yields a permutation of the input ordered by the
key: IPv4-shaped strings ascend by the value `(a<<24)+(b<<16)+(c<<8)+d`,
every non-IPv4-shaped string sorts after all IPv4-shaped ones, and the
relative order of the non-IPv4-shaped strings is exactly their input
order (stability).  Repeated calls agree because `sortHosts` is a pure
function of the input list. -/
theorem sortHosts_c3 (l : List String) :
    List.Sorted ipLe (sortHosts l)
    ∧ List.Pairwise
        (fun a b => ∀ va vb, ip_to_int a = some va → ip_to_int b = some vb → va ≤ vb)
        (sortHosts l)
    ∧ List.Pairwise (fun a b => ip_to_int a = none → ip_to_int b = none) (sortHosts l)
    ∧ (sortHosts l).filter nonIp = l.filter nonIp
    ∧ (sortHosts l).Perm l := by
  have hs : List.Sorted ipLe (sortHosts l) := List.sorted_insertionSort ipLe l
  refine ⟨hs, ?_, ?_, filter_nonIp_sortHosts l, List.perm_insertionSort ipLe l⟩
  · refine hs.imp ?_
    intro a b hab va vb hva hvb
    unfold ipLe at hab
    rw [hva, hvb] at hab
    exact hab
  · refine hs.imp ?_
    intro a b hab ha
    exact (ipLe_of_none ha).mp hab

theorem dictGet_dictInsert_self {V : Type} (d : List (String × V)) (k : String) (v : V) :
    dictGet (dictInsert d k v) k = some v := by
  induction d with
  | nil => simp [dictInsert, dictGet]
  | cons kv rest ih =>
    by_cases hk : kv.1 = k
    · simp [dictInsert, dictGet, hk]
    · simp [dictInsert, dictGet, hk, ih]

theorem dictGet_dictInsert_ne {V : Type} (d : List (String × V)) (k k' : String) (v : V)
    (h : k' ≠ k) : dictGet (dictInsert d k v) k' = dictGet d k' := by
  induction d with
  | nil =>
    have hne : ¬ (k = k') := fun he => h he.symm
    simp [dictInsert, dictGet, hne]
  | cons kv rest ih =>
    obtain ⟨k0, v0⟩ := kv
    by_cases hk : k0 = k
    · have hne : ¬ (k0 = k') := fun he => h (he.symm.trans hk)
      rw [dictInsert, if_pos hk]
      simp [dictGet, hne]
    · rw [dictInsert, if_neg hk]
      by_cases hk2 : k0 = k'
      · simp [dictGet, hk2]
      · simp [dictGet, hk2, ih]

theorem runCycle_not_mem (hostsL : List String) (env : String → ProbeEnv) (ts : Nat)
    (res : List (String × Record)) (h : String) (hh : h ∉ hostsL) :
    dictGet (runCycle hostsL env ts res) h = dictGet res h := by
  induction hostsL generalizing res with
  | nil => rfl
  | cons x xs ih =>
    have hx : h ≠ x := fun e => hh (e ▸ List.mem_cons_self x xs)
    have hxs : h ∉ xs := fun e => hh (List.mem_cons_of_mem x e)
    show dictGet (runCycle xs env ts (dictInsert res x (ping_host x ts (env x)).1)) h = _
    rw [ih _ hxs, dictGet_dictInsert_ne _ _ _ _ hx]

theorem runCycle_mem (hostsL : List String) (env : String → ProbeEnv) (ts : Nat)
    (res : List (String × Record)) (h : String) (hh : h ∈ hostsL) :
    dictGet (runCycle hostsL env ts res) h = some (ping_host h ts (env h)).1 := by
  induction hostsL generalizing res with
  | nil => exact absurd hh (List.not_mem_nil h)
  | cons x xs ih =>
    show dictGet (runCycle xs env ts (dictInsert res x (ping_host x ts (env x)).1)) h = _
    by_cases hmem : h ∈ xs
    · exact ih _ hmem
    · have hx : h = x := by
        rcases List.mem_cons.mp hh with he | he
        · exact he
        · exact absurd he hmem
      subst hx
      rw [runCycle_not_mem _ _ _ _ _ hmem, dictGet_dictInsert_self]

theorem sortHosts_c3_witness :
    (sortHosts ["b", "10.0.0.2", "a", "10.0.0.1"]).filter nonIp
      = List.filter nonIp ["b", "10.0.0.2", "a", "10.0.0.1"] :=
  (sortHosts_c3 ["b", "10.0.0.2", "a", "10.0.0.1"]).2.2.2.1

/-- C10: every dictionary `ping_host` returns carries all six keys (the six
fields of `Record`, fixed by construction) with `host` and `timestamp`
taken from the call, and its status is always one of `'up'`, `'down'`,
`'error'` — the initial `'unknown'` never escapes, over every host string
and every environment outcome. -/
theorem ping_host_c10 (h : String) (ts : Nat) (env : ProbeEnv) :
    ((ping_host h ts env).1.status = Status.up ∨ (ping_host h ts env).1.status = Status.down
      ∨ (ping_host h ts env).1.status = Status.error)
    ∧ (ping_host h ts env).1.status ≠ Status.unknown
    ∧ (ping_host h ts env).1.host = h
    ∧ (ping_host h ts env).1.timestamp = ts := by
  obtain ⟨rs, la, sub⟩ := env
  cases rs with
  | gaierror => simp [ping_host, initRecord]
  | raised m => simp [ping_host, initRecord]
  | ok =>
    cases la with
    | some m => simp [ping_host, initRecord]
    | none =>
      by_cases hr : sub.returncode = 0
      · cases hl : latencyStep sub.stdout with
        | error m => simp [ping_host, hr, hl, initRecord]
        | ok lat =>
          cases hp : plSearch sub.stdout with
          | none => simp [ping_host, hr, hl, hp, initRecord]
          | some pl =>
            by_cases he : Dec.eqv pl (Dec.ofNat 100)
            · simp only [ping_host, hr, hl, hp]
              rw [if_pos True.intro, if_pos he]
              simp [initRecord]
            · simp only [ping_host, hr, hl, hp]
              rw [if_pos True.intro, if_neg he]
              simp [initRecord]
      · by_cases hs : sub.stderr = []
        · simp [ping_host, hr, hs, initRecord]
        · simp [ping_host, hr, hs, initRecord]

theorem ping_host_c10_witness :
    (((ping_host "h" 0 ⟨ResolveOutcome.ok, none, ⟨0, [], []⟩⟩).1.status = Status.up
        ∨ (ping_host "h" 0 ⟨ResolveOutcome.ok, none, ⟨0, [], []⟩⟩).1.status = Status.down
        ∨ (ping_host "h" 0 ⟨ResolveOutcome.ok, none, ⟨0, [], []⟩⟩).1.status = Status.error)
      ∧ (ping_host "h" 0 ⟨ResolveOutcome.ok, none, ⟨0, [], []⟩⟩).1.status ≠ Status.unknown
      ∧ (ping_host "h" 0 ⟨ResolveOutcome.ok, none, ⟨0, [], []⟩⟩).1.host = "h"
      ∧ (ping_host "h" 0 ⟨ResolveOutcome.ok, none, ⟨0, [], []⟩⟩).1.timestamp = 0) :=
  ping_host_c10 "h" 0 ⟨ResolveOutcome.ok, none, ⟨0, [], []⟩⟩

/-- C5: when name resolution fails with `socket.gaierror`, `ping_host`
short-circuits to status `'error'` with message `Cannot resolve hostname`,
leaving every other field at its initial value, and the ping subprocess is
never consulted (second component `false`), whatever the rest of the
environment would have done. -/
theorem ping_host_c5 (h : String) (ts : Nat) (env : ProbeEnv)
    (hres : env.resolve = ResolveOutcome.gaierror) :
    ping_host h ts env
      = ({ initRecord h ts with status := Status.error,
                                message := "Cannot resolve hostname" }, false) := by
  obtain ⟨rs, la, sub⟩ := env
  cases hres
  rfl

theorem ping_host_c5_witness :
    ping_host "printer.local" 7 ⟨ResolveOutcome.gaierror, none, ⟨0, "time=3.2".data, []⟩⟩
      = ({ initRecord "printer.local" 7 with status := Status.error,
                                             message := "Cannot resolve hostname" }, false) :=
  ping_host_c5 "printer.local" 7 ⟨ResolveOutcome.gaierror, none, ⟨0, "time=3.2".data, []⟩⟩ rfl

/-- C1 fails as stated: a ping subprocess that exits 0 with output carrying
no `% packet loss` figure (here: empty stdout) leaves `packet_loss` at its
default `100.0` while the status is `'up'`, not `'down'` or `'error'`. -/
theorem ping_host_c1_counterexample :
    (ping_host "10.0.0.9" 0 ⟨ResolveOutcome.ok, none, ⟨0, [], []⟩⟩).1.packet_loss
        = Dec.ofNat 100
      ∧ (ping_host "10.0.0.9" 0 ⟨ResolveOutcome.ok, none, ⟨0, [], []⟩⟩).1.status = Status.up
      ∧ Status.up ≠ Status.down ∧ Status.up ≠ Status.error := by
  refine ⟨rfl, rfl, by decide, by decide⟩

/-- C1 amended: a record whose packet loss equals `100.0` has status
`'down'` or `'error'`, except when the subprocess exited 0 and its output
contained no packet-loss figure, in which case the status is `'up'` and
the `100.0` is the untouched default; and a resolution failure keeps
`packet_loss` at the default `100.0` (no figure is fabricated). -/
theorem ping_host_c1_amended (h : String) (ts : Nat) (env : ProbeEnv) :
    (Dec.eqv (ping_host h ts env).1.packet_loss (Dec.ofNat 100) →
      (ping_host h ts env).1.status = Status.down
      ∨ (ping_host h ts env).1.status = Status.error
      ∨ ((ping_host h ts env).1.status = Status.up ∧ plSearch env.sub.stdout = none))
    ∧ (env.resolve = ResolveOutcome.gaierror →
        (ping_host h ts env).1.packet_loss = Dec.ofNat 100) := by
  obtain ⟨rs, la, sub⟩ := env
  cases rs with
  | gaierror => exact ⟨fun _ => Or.inr (Or.inl rfl), fun _ => rfl⟩
  | raised m => exact ⟨fun _ => Or.inr (Or.inl rfl), fun hc => by cases hc⟩
  | ok =>
    refine ⟨?_, fun hc => by cases hc⟩
    cases la with
    | some m => exact fun _ => Or.inr (Or.inl rfl)
    | none =>
      by_cases hr : sub.returncode = 0
      · cases hl : latencyStep sub.stdout with
        | error m => simp [ping_host, hr, hl]
        | ok lat =>
          cases hp : plSearch sub.stdout with
          | none =>
            intro _
            refine Or.inr (Or.inr ?_)
            simp [ping_host, hr, hl, hp]
          | some pl =>
            by_cases he : Dec.eqv pl (Dec.ofNat 100)
            · intro _
              refine Or.inl ?_
              simp only [ping_host, hr, hl, hp]
              rw [if_pos True.intro, if_pos he]
            · intro heqv
              have hpl : (ping_host h ts ⟨ResolveOutcome.ok, none, sub⟩).1.packet_loss = pl := by
                simp only [ping_host, hr, hl, hp]
                rw [if_pos True.intro, if_neg he]
              rw [hpl] at heqv
              exact absurd heqv he
      · intro _
        by_cases hs : sub.stderr = []
        · simp [ping_host, hr, hs]
        · simp [ping_host, hr, hs]

theorem ping_host_c1_witness :
    ((ping_host "gw" 3 ⟨ResolveOutcome.gaierror, none, ⟨0, [], []⟩⟩).1.status = Status.down
      ∨ (ping_host "gw" 3 ⟨ResolveOutcome.gaierror, none, ⟨0, [], []⟩⟩).1.status = Status.error
      ∨ ((ping_host "gw" 3 ⟨ResolveOutcome.gaierror, none, ⟨0, [], []⟩⟩).1.status = Status.up
          ∧ plSearch ([] : List Char) = none))
    ∧ (ping_host "gw" 3 ⟨ResolveOutcome.gaierror, none, ⟨0, [], []⟩⟩).1.packet_loss
        = Dec.ofNat 100 :=
  ⟨(ping_host_c1_amended "gw" 3 ⟨ResolveOutcome.gaierror, none, ⟨0, [], []⟩⟩).1 (by decide),
   (ping_host_c1_amended "gw" 3 ⟨ResolveOutcome.gaierror, none, ⟨0, [], []⟩⟩).2 rfl⟩

/-- C4: a failure probing one host (resolution failure, a pre-launch
exception, a failed or timed-out ping, or the latency-conversion
exception) yields a `'down'` or `'error'` record; `ping_host` is a total
function, so it never raises to `ping_worker`; and the cycle writes the
probe result for every host of the list while leaving every other key of
the results table untouched. -/
theorem runCycle_c4 (hostsL : List String) (env : String → ProbeEnv) (ts : Nat)
    (res : List (String × Record)) :
    (∀ h, h ∈ hostsL →
        dictGet (runCycle hostsL env ts res) h = some (ping_host h ts (env h)).1)
    ∧ (∀ h, h ∉ hostsL → dictGet (runCycle hostsL env ts res) h = dictGet res h)
    ∧ (∀ h e, probeFailed e →
        (ping_host h ts e).1.status = Status.down
        ∨ (ping_host h ts e).1.status = Status.error) := by
  refine ⟨fun h hh => runCycle_mem hostsL env ts res h hh,
          fun h hh => runCycle_not_mem hostsL env ts res h hh, ?_⟩
  intro h e hf
  obtain ⟨rs, la, sub⟩ := e
  cases rs with
  | gaierror => exact Or.inr rfl
  | raised m => exact Or.inr rfl
  | ok =>
    cases la with
    | some m => exact Or.inr rfl
    | none =>
      by_cases hr : sub.returncode = 0
      · cases hl : latencyStep sub.stdout with
        | error m =>
          refine Or.inr ?_
          simp [ping_host, hr, hl]
        | ok lat =>
          rcases hf with hf | hf | hf | ⟨m, hm⟩
          · exact absurd rfl hf
          · exact absurd rfl hf
          · exact absurd hr hf
          · rw [hl] at hm
            cases hm
      · refine Or.inl ?_
        by_cases hs : sub.stderr = []
        · simp [ping_host, hr, hs]
        · simp [ping_host, hr, hs]

theorem runCycle_c4_witness :
    (dictGet (runCycle ["a", "b"]
        (fun h => if h = "a" then ⟨ResolveOutcome.gaierror, none, ⟨0, [], []⟩⟩
                  else ⟨ResolveOutcome.ok, none, ⟨1, [], []⟩⟩) 0 []) "b"
      = some (ping_host "b" 0 ⟨ResolveOutcome.ok, none, ⟨1, [], []⟩⟩).1)
    ∧ ((ping_host "a" 0 ⟨ResolveOutcome.gaierror, none, ⟨0, [], []⟩⟩).1.status = Status.down
        ∨ (ping_host "a" 0 ⟨ResolveOutcome.gaierror, none, ⟨0, [], []⟩⟩).1.status
            = Status.error) := by
  constructor
  · have := (runCycle_c4 ["a", "b"]
        (fun h => if h = "a" then ⟨ResolveOutcome.gaierror, none, ⟨0, [], []⟩⟩
                  else ⟨ResolveOutcome.ok, none, ⟨1, [], []⟩⟩) 0 []).1 "b" (by decide)
    simpa using this
  · exact (runCycle_c4 [] (fun _ => ⟨ResolveOutcome.ok, none, ⟨0, [], []⟩⟩) 0 []).2.2
      "a" ⟨ResolveOutcome.gaierror, none, ⟨0, [], []⟩⟩ (Or.inl (by decide))

/-- C8 fails as stated on the duplicate-host part: when the same host
appears twice with different names, the parser's name map keeps the LAST
occurrence's display name (`host_names[host] = name` overwrites), not the
first one's. -/
theorem parseLines_c8_counterexample :
    dictGet (parseLines ["a:h".data, "b:h".data]).2 "h" = some "b"
      ∧ some "b" ≠ (some "a" : Option String) := by
  refine ⟨rfl, by decide⟩

/-- C8 amended: parsing `alpha:10.0.0.1`, `10.0.0.2`, `# comment`, blank
yields hosts `[10.0.0.1, 10.0.0.2]` in order with name `alpha` for the
first; the second gets NO name-map entry, so renderers
(`host_names.get(host, host)`) display the host string itself, not a
blank.  Duplicate hosts keep the first occurrence's position via the
startup `list(dict.fromkeys(...))` dedup, but the display name is the
last occurrence's, and the reload parse itself keeps duplicates. -/
theorem parseLines_c8_amended :
    read_hosts_from_file ["alpha:10.0.0.1".data, "10.0.0.2".data, "# comment".data, "".data]
        false
      = ReadOutcome.ok ["10.0.0.1", "10.0.0.2"] [("10.0.0.1", "alpha")]
    ∧ dictGetD
        (parseLines ["alpha:10.0.0.1".data, "10.0.0.2".data, "# comment".data, "".data]).2
        "10.0.0.2" "10.0.0.2" = "10.0.0.2"
    ∧ dedupFirst ["10.0.0.1", "10.0.0.2", "10.0.0.1"] = ["10.0.0.1", "10.0.0.2"]
    ∧ (parseLines ["h".data, "h".data]).1 = ["h", "h"] := by
  refine ⟨rfl, rfl, rfl, rfl⟩

/-- C2: the eviction diff itself is as specified — reloading `{A,B}` to
`{B,C}` removes `A`'s record, keeps `B`'s record untouched and adds
nothing for `C` — but the reload step then raises `NameError` (cli.py
line 132 reads the never-defined `added_hosts`), which propagates out of
`check_file_changes` and kills the `ping_worker` thread, so the step does
not complete and no next probe cycle runs. -/
theorem check_file_changes_c2 :
    check_file_changes
        ⟨["A", "B"], [], [("A", initRecord "A" 1), ("B", initRecord "B" 2)], ⟨0, 0⟩⟩
        ⟨true, true, some ⟨1, 0⟩, ["B".data, "C".data], false⟩
      = (⟨["B", "C"], [], [("B", initRecord "B" 2)], ⟨1, 0⟩⟩, FCOutcome.nameError)
    ∧ dictGet [("B", initRecord "B" 2)] "A" = none
    ∧ dictGet [("B", initRecord "B" 2)] "C" = none
    ∧ dictGet [("B", initRecord "B" 2)] "B"
        = dictGet [("A", initRecord "A" 1), ("B", initRecord "B" 2)] "B" := by
  refine ⟨rfl, rfl, rfl, rfl⟩

/-- C6: the tolerated cases behave as claimed — a missing file or an
`OSError` from `getmtime` change nothing and fail nothing — but when the
modification time advanced and the file then cannot be read (vanished in
the race after the existence check) or parses to zero hosts (momentarily
truncated), `read_hosts_from_file` calls `sys.exit(1)`; the resulting
`SystemExit` is not an `OSError`/`IOError`, so the handler at cli.py
line 136 does not catch it and the worker thread dies instead of
"returning nothing". -/
theorem check_file_changes_c6 :
    check_file_changes ⟨["A"], [], [], ⟨0, 0⟩⟩ ⟨true, false, some ⟨1, 0⟩, [], false⟩
        = (⟨["A"], [], [], ⟨0, 0⟩⟩, FCOutcome.noChange)
    ∧ check_file_changes ⟨["A"], [], [], ⟨0, 0⟩⟩ ⟨true, true, none, ["B".data], false⟩
        = (⟨["A"], [], [], ⟨0, 0⟩⟩, FCOutcome.noChange)
    ∧ check_file_changes ⟨["A"], [], [], ⟨0, 0⟩⟩ ⟨true, true, some ⟨1, 0⟩, [], true⟩
        = (⟨["A"], [], [], ⟨1, 0⟩⟩, FCOutcome.exited)
    ∧ check_file_changes ⟨["A"], [], [], ⟨0, 0⟩⟩ ⟨true, true, some ⟨1, 0⟩, ["".data], false⟩
        = (⟨["A"], [], [], ⟨1, 0⟩⟩, FCOutcome.exited)
    ∧ FCOutcome.exited ≠ FCOutcome.noChange := by
  refine ⟨rfl, rfl, rfl, rfl, by decide⟩

/-- C9 fails as stated: `display_results_detailed` interpolates
`datetime.now()` into its summary line, so two calls with identical host
list, name map and results table — but clock readings one second apart —
print different first lines. -/
theorem display_detailed_c9_counterexample :
    display_results_detailed "00:00:00".data ["10.0.0.1"] []
        [("10.0.0.1", ⟨"10.0.0.1", Status.up, some ⟨123, 1⟩, 0, "", ⟨0, 0⟩⟩)]
      ≠ display_results_detailed "00:00:01".data ["10.0.0.1"] []
        [("10.0.0.1", ⟨"10.0.0.1", Status.up, some ⟨123, 1⟩, 0, "", ⟨0, 0⟩⟩)] := by
  decide

/-- C9 amended: with the host list, name map and results table unchanged,
everything below the summary line is character-for-character identical
between two calls, and when the formatted clock reading is also unchanged
the whole output is identical — the renderer is a pure function of the
table, the host list, the name map and the clock text. -/
theorem display_detailed_c9_amended (ts1 ts2 : List Char) (hostsL : List String)
    (names : List (String × String)) (res : List (String × Record)) :
    List.drop 1 (display_results_detailed ts1 hostsL names res)
        = List.drop 1 (display_results_detailed ts2 hostsL names res)
    ∧ (ts1 = ts2 →
        display_results_detailed ts1 hostsL names res
          = display_results_detailed ts2 hostsL names res) := by
  constructor
  · by_cases hres : res = []
    · simp [display_results_detailed, hres]
    · simp [display_results_detailed, hres]
  · intro h
    rw [h]

theorem display_detailed_c9_witness :
    List.drop 1 (display_results_detailed "12:00:00".data ["10.0.0.1"] []
          [("10.0.0.1", initRecord "10.0.0.1" 0)])
        = List.drop 1 (display_results_detailed "12:00:05".data ["10.0.0.1"] []
          [("10.0.0.1", initRecord "10.0.0.1" 0)])
    ∧ display_results_detailed "12:00:00".data ["10.0.0.1"] []
          [("10.0.0.1", initRecord "10.0.0.1" 0)]
        = display_results_detailed "12:00:00".data ["10.0.0.1"] []
          [("10.0.0.1", initRecord "10.0.0.1" 0)] :=
  ⟨(display_detailed_c9_amended "12:00:00".data "12:00:05".data ["10.0.0.1"] []
      [("10.0.0.1", initRecord "10.0.0.1" 0)]).1,
   (display_detailed_c9_amended "12:00:00".data "12:00:00".data ["10.0.0.1"] []
      [("10.0.0.1", initRecord "10.0.0.1" 0)]).2 rfl⟩

theorem live_step_hp (st : LiveState) (now : Dec) (hostsL : List String)
    (names : List (String × String)) (res : List (String × Record))
    (h : st.headerPrinted = true) :
    (display_results_live st now hostsL names res).1.headerPrinted = true := by
  unfold display_results_live
  rw [if_neg (fun hc : st.headerPrinted = false => by rw [h] at hc; cases hc)]
  by_cases hrate : Dec.lt (Dec.sub now st.lastDisplay) Dec.half
  · rw [if_pos hrate]
    exact h
  · rw [if_neg hrate]
    by_cases hres : res = []
    · rw [if_pos hres]
      exact h
    · rw [if_neg hres]
      exact h

theorem live_step_last_ge (st : LiveState) (now : Dec) (hostsL : List String)
    (names : List (String × String)) (res : List (String × Record)) (c : ℚ)
    (h : st.headerPrinted = true) (hc : c ≤ st.lastDisplay.val) :
    c ≤ (display_results_live st now hostsL names res).1.lastDisplay.val := by
  unfold display_results_live
  rw [if_neg (fun hx : st.headerPrinted = false => by rw [h] at hx; cases hx)]
  by_cases hrate : Dec.lt (Dec.sub now st.lastDisplay) Dec.half
  · rw [if_pos hrate]
    exact hc
  · rw [if_neg hrate]
    have hnow : st.lastDisplay.val ≤ now.val := by
      rw [Dec.lt_iff_val, Dec.sub_val, Dec.half_val] at hrate
      linarith [not_lt.mp hrate]
    by_cases hres : res = []
    · rw [if_pos hres]
      exact le_trans hc hnow
    · rw [if_neg hres]
      exact le_trans hc hnow

theorem live_step_actual (st : LiveState) (now : Dec) (hostsL : List String)
    (names : List (String × String)) (res : List (String × Record))
    (h : st.headerPrinted = true)
    (hact : isLiveUpdate (display_results_live st now hostsL names res).2 = true) :
    ¬ Dec.lt (Dec.sub now st.lastDisplay) Dec.half
      ∧ (display_results_live st now hostsL names res).1.lastDisplay = now := by
  unfold display_results_live at hact ⊢
  rw [if_neg (fun hx : st.headerPrinted = false => by rw [h] at hx; cases hx)] at hact ⊢
  by_cases hrate : Dec.lt (Dec.sub now st.lastDisplay) Dec.half
  · rw [if_pos hrate] at hact
    cases hact
  · rw [if_neg hrate] at hact ⊢
    by_cases hres : res = []
    · rw [if_pos hres] at hact
      cases hact
    · rw [if_neg hres]
      exact ⟨hrate, rfl⟩

theorem live_step_sets_last (st : LiveState) (now : Dec) (hostsL : List String)
    (names : List (String × String)) (res : List (String × Record))
    (hact : isLiveUpdate (display_results_live st now hostsL names res).2 = true) :
    (display_results_live st now hostsL names res).1.lastDisplay = now
      ∧ (display_results_live st now hostsL names res).1.headerPrinted = true := by
  unfold display_results_live at hact ⊢
  by_cases hhp : st.headerPrinted = false
  · rw [if_pos hhp]
    exact ⟨rfl, rfl⟩
  · rw [if_neg hhp] at hact ⊢
    by_cases hrate : Dec.lt (Dec.sub now st.lastDisplay) Dec.half
    · rw [if_pos hrate] at hact
      cases hact
    · rw [if_neg hrate] at hact ⊢
      by_cases hres : res = []
      · rw [if_pos hres] at hact
        cases hact
      · rw [if_neg hres]
        refine ⟨rfl, ?_⟩
        simpa using hhp

theorem live_run_spacing_aux (inputs : List LiveIn) :
    ∀ (st : LiveState) (c : ℚ), st.headerPrinted = true → c ≤ st.lastDisplay.val →
      ∀ (j : Nat) (jj : LiveIn) (oj : LiveOut),
        inputs[j]? = some jj → (runLive st inputs)[j]? = some oj →
        isLiveUpdate oj = true → c + 1 / 2 ≤ jj.1.val := by
  induction inputs with
  | nil =>
    intro st c _ _ j jj oj hjj _ _
    rw [List.getElem?_nil] at hjj
    cases hjj
  | cons x rest ih =>
    intro st c hhp hc j jj oj hjj hoj hact
    cases j with
    | zero =>
      have hx : x = jj := by
        have := hjj
        rw [List.getElem?_cons_zero] at this
        exact Option.some.inj this
      have hox : (display_results_live st x.1 x.2.1 x.2.2.1 x.2.2.2).2 = oj := by
        have := hoj
        rw [show runLive st (x :: rest)
              = (display_results_live st x.1 x.2.1 x.2.2.1 x.2.2.2).2
                :: runLive (display_results_live st x.1 x.2.1 x.2.2.1 x.2.2.2).1 rest
            from rfl, List.getElem?_cons_zero] at this
        exact Option.some.inj this
      rw [← hox] at hact
      have hrate := (live_step_actual st x.1 x.2.1 x.2.2.1 x.2.2.2 hhp hact).1
      rw [Dec.lt_iff_val, Dec.sub_val, Dec.half_val] at hrate
      have h2 := not_lt.mp hrate
      rw [← hx]
      linarith
    | succ j0 =>
      have hjj0 : rest[j0]? = some jj := by
        have := hjj
        rw [List.getElem?_cons_succ] at this
        exact this
      have hoj0 :
          (runLive (display_results_live st x.1 x.2.1 x.2.2.1 x.2.2.2).1 rest)[j0]?
            = some oj := by
        have := hoj
        rw [show runLive st (x :: rest)
              = (display_results_live st x.1 x.2.1 x.2.2.1 x.2.2.2).2
                :: runLive (display_results_live st x.1 x.2.1 x.2.2.1 x.2.2.2).1 rest
            from rfl, List.getElem?_cons_succ] at this
        exact this
      exact ih (display_results_live st x.1 x.2.1 x.2.2.1 x.2.2.2).1 c
        (live_step_hp st x.1 x.2.1 x.2.2.1 x.2.2.2 hhp)
        (live_step_last_ge st x.1 x.2.1 x.2.2.1 x.2.2.2 c hhp hc)
        j0 jj oj hjj0 hoj0 hact

theorem live_run_noop_aux (inputs : List LiveIn) :
    ∀ (st : LiveState) (c : ℚ), st.headerPrinted = true → c ≤ st.lastDisplay.val →
      ∀ (j : Nat) (jj : LiveIn) (oj : LiveOut),
        inputs[j]? = some jj → (runLive st inputs)[j]? = some oj →
        jj.1.val < c + 1 / 2 → oj = LiveOut.noop := by
  induction inputs with
  | nil =>
    intro st c _ _ j jj oj hjj _ _
    rw [List.getElem?_nil] at hjj
    cases hjj
  | cons x rest ih =>
    intro st c hhp hc j jj oj hjj hoj hlt
    cases j with
    | zero =>
      have hx : x = jj := by
        have := hjj
        rw [List.getElem?_cons_zero] at this
        exact Option.some.inj this
      have hox : (display_results_live st x.1 x.2.1 x.2.2.1 x.2.2.2).2 = oj := by
        have := hoj
        rw [show runLive st (x :: rest)
              = (display_results_live st x.1 x.2.1 x.2.2.1 x.2.2.2).2
                :: runLive (display_results_live st x.1 x.2.1 x.2.2.1 x.2.2.2).1 rest
            from rfl, List.getElem?_cons_zero] at this
        exact Option.some.inj this
      by_cases hrate : Dec.lt (Dec.sub x.1 st.lastDisplay) Dec.half
      · rw [← hox]
        unfold display_results_live
        rw [if_neg (fun hz : st.headerPrinted = false => by rw [hhp] at hz; cases hz),
            if_pos hrate]
      · exfalso
        rw [Dec.lt_iff_val, Dec.sub_val, Dec.half_val] at hrate
        have h1 := not_lt.mp hrate
        rw [← hx] at hlt
        linarith
    | succ j0 =>
      have hjj0 : rest[j0]? = some jj := by
        have := hjj
        rw [List.getElem?_cons_succ] at this
        exact this
      have hoj0 :
          (runLive (display_results_live st x.1 x.2.1 x.2.2.1 x.2.2.2).1 rest)[j0]?
            = some oj := by
        have := hoj
        rw [show runLive st (x :: rest)
              = (display_results_live st x.1 x.2.1 x.2.2.1 x.2.2.2).2
                :: runLive (display_results_live st x.1 x.2.1 x.2.2.1 x.2.2.2).1 rest
            from rfl, List.getElem?_cons_succ] at this
        exact this
      exact ih (display_results_live st x.1 x.2.1 x.2.2.1 x.2.2.2).1 c
        (live_step_hp st x.1 x.2.1 x.2.2.1 x.2.2.2 hhp)
        (live_step_last_ge st x.1 x.2.1 x.2.2.1 x.2.2.2 c hhp hc)
        j0 jj oj hjj0 hoj0 hlt

theorem live_run_noop (inputs : List LiveIn) :
    ∀ (st : LiveState) (i j : Nat) (ii jj : LiveIn) (oi oj : LiveOut),
      inputs[i]? = some ii → inputs[j]? = some jj → i < j →
      (runLive st inputs)[i]? = some oi → isLiveUpdate oi = true →
      (runLive st inputs)[j]? = some oj →
      jj.1.val < ii.1.val + 1 / 2 → oj = LiveOut.noop := by
  induction inputs with
  | nil =>
    intro st i j ii jj oi oj hii _ _ _ _ _ _
    rw [List.getElem?_nil] at hii
    cases hii
  | cons x rest ih =>
    intro st i j ii jj oi oj hii hjj hij hoi hacti hoj hlt
    cases i with
    | zero =>
      have hx : x = ii := by
        have := hii
        rw [List.getElem?_cons_zero] at this
        exact Option.some.inj this
      have hox : (display_results_live st x.1 x.2.1 x.2.2.1 x.2.2.2).2 = oi := by
        have := hoi
        rw [show runLive st (x :: rest)
              = (display_results_live st x.1 x.2.1 x.2.2.1 x.2.2.2).2
                :: runLive (display_results_live st x.1 x.2.1 x.2.2.1 x.2.2.2).1 rest
            from rfl, List.getElem?_cons_zero] at this
        exact Option.some.inj this
      rw [← hox] at hacti
      obtain ⟨hlast, hhp⟩ :=
        live_step_sets_last st x.1 x.2.1 x.2.2.1 x.2.2.2 hacti
      cases j with
      | zero => exact absurd hij (lt_irrefl 0)
      | succ j0 =>
        have hjj0 : rest[j0]? = some jj := by
          have := hjj
          rw [List.getElem?_cons_succ] at this
          exact this
        have hoj0 :
            (runLive (display_results_live st x.1 x.2.1 x.2.2.1 x.2.2.2).1
                rest)[j0]? = some oj := by
          have := hoj
          rw [show runLive st (x :: rest)
                = (display_results_live st x.1 x.2.1 x.2.2.1 x.2.2.2).2
                  :: runLive (display_results_live st x.1 x.2.1 x.2.2.1 x.2.2.2).1 rest
              from rfl, List.getElem?_cons_succ] at this
          exact this
        have hval : (display_results_live st x.1 x.2.1 x.2.2.1 x.2.2.2).1.lastDisplay.val
            = x.1.val := congrArg Dec.val hlast
        refine live_run_noop_aux rest
          (display_results_live st x.1 x.2.1 x.2.2.1 x.2.2.2).1 x.1.val hhp
          (le_of_eq hval.symm) j0 jj oj hjj0 hoj0 ?_
        rw [← hx] at hlt
        exact hlt
    | succ i0 =>
      cases j with
      | zero => exact absurd hij (by omega)
      | succ j0 =>
        have hii0 : rest[i0]? = some ii := by
          have := hii
          rw [List.getElem?_cons_succ] at this
          exact this
        have hjj0 : rest[j0]? = some jj := by
          have := hjj
          rw [List.getElem?_cons_succ] at this
          exact this
        have hoi0 :
            (runLive (display_results_live st x.1 x.2.1 x.2.2.1 x.2.2.2).1
                rest)[i0]? = some oi := by
          have := hoi
          rw [show runLive st (x :: rest)
                = (display_results_live st x.1 x.2.1 x.2.2.1 x.2.2.2).2
                  :: runLive (display_results_live st x.1 x.2.1 x.2.2.1 x.2.2.2).1 rest
              from rfl, List.getElem?_cons_succ] at this
          exact this
        have hoj0 :
            (runLive (display_results_live st x.1 x.2.1 x.2.2.1 x.2.2.2).1
                rest)[j0]? = some oj := by
          have := hoj
          rw [show runLive st (x :: rest)
                = (display_results_live st x.1 x.2.1 x.2.2.1 x.2.2.2).2
                  :: runLive (display_results_live st x.1 x.2.1 x.2.2.1 x.2.2.2).1 rest
              from rfl, List.getElem?_cons_succ] at this
          exact this
        exact ih (display_results_live st x.1 x.2.1 x.2.2.1 x.2.2.2).1 i0 j0 ii jj
          oi oj hii0 hjj0 (by omega) hoi0 hacti hoj0 hlt

theorem live_run_spacing (inputs : List LiveIn) :
    ∀ (st : LiveState) (i j : Nat) (ii jj : LiveIn) (oi oj : LiveOut),
      inputs[i]? = some ii → inputs[j]? = some jj → i < j →
      (runLive st inputs)[i]? = some oi → isLiveUpdate oi = true →
      (runLive st inputs)[j]? = some oj → isLiveUpdate oj = true →
      1 / 2 ≤ jj.1.val - ii.1.val := by
  induction inputs with
  | nil =>
    intro st i j ii jj oi oj hii _ _ _ _ _ _
    rw [List.getElem?_nil] at hii
    cases hii
  | cons x rest ih =>
    intro st i j ii jj oi oj hii hjj hij hoi hacti hoj hactj
    cases i with
    | zero =>
      have hx : x = ii := by
        have := hii
        rw [List.getElem?_cons_zero] at this
        exact Option.some.inj this
      have hox : (display_results_live st x.1 x.2.1 x.2.2.1 x.2.2.2).2 = oi := by
        have := hoi
        rw [show runLive st (x :: rest)
              = (display_results_live st x.1 x.2.1 x.2.2.1 x.2.2.2).2
                :: runLive (display_results_live st x.1 x.2.1 x.2.2.1 x.2.2.2).1 rest
            from rfl, List.getElem?_cons_zero] at this
        exact Option.some.inj this
      rw [← hox] at hacti
      obtain ⟨hlast, hhp⟩ :=
        live_step_sets_last st x.1 x.2.1 x.2.2.1 x.2.2.2 hacti
      cases j with
      | zero => exact absurd hij (lt_irrefl 0)
      | succ j0 =>
        have hjj0 : rest[j0]? = some jj := by
          have := hjj
          rw [List.getElem?_cons_succ] at this
          exact this
        have hoj0 :
            (runLive (display_results_live st x.1 x.2.1 x.2.2.1 x.2.2.2).1
                rest)[j0]? = some oj := by
          have := hoj
          rw [show runLive st (x :: rest)
                = (display_results_live st x.1 x.2.1 x.2.2.1 x.2.2.2).2
                  :: runLive (display_results_live st x.1 x.2.1 x.2.2.1 x.2.2.2).1 rest
              from rfl, List.getElem?_cons_succ] at this
          exact this
        have hval : (display_results_live st x.1 x.2.1 x.2.2.1 x.2.2.2).1.lastDisplay.val
            = x.1.val := congrArg Dec.val hlast
        have hspace := live_run_spacing_aux rest
          (display_results_live st x.1 x.2.1 x.2.2.1 x.2.2.2).1 x.1.val hhp
          (le_of_eq hval.symm) j0 jj oj hjj0 hoj0 hactj
        rw [← hx]
        linarith
    | succ i0 =>
      cases j with
      | zero => exact absurd hij (by omega)
      | succ j0 =>
        have hii0 : rest[i0]? = some ii := by
          have := hii
          rw [List.getElem?_cons_succ] at this
          exact this
        have hjj0 : rest[j0]? = some jj := by
          have := hjj
          rw [List.getElem?_cons_succ] at this
          exact this
        have hoi0 :
            (runLive (display_results_live st x.1 x.2.1 x.2.2.1 x.2.2.2).1
                rest)[i0]? = some oi := by
          have := hoi
          rw [show runLive st (x :: rest)
                = (display_results_live st x.1 x.2.1 x.2.2.1 x.2.2.2).2
                  :: runLive (display_results_live st x.1 x.2.1 x.2.2.1 x.2.2.2).1 rest
              from rfl, List.getElem?_cons_succ] at this
          exact this
        have hoj0 :
            (runLive (display_results_live st x.1 x.2.1 x.2.2.1 x.2.2.2).1
                rest)[j0]? = some oj := by
          have := hoj
          rw [show runLive st (x :: rest)
                = (display_results_live st x.1 x.2.1 x.2.2.1 x.2.2.2).2
                  :: runLive (display_results_live st x.1 x.2.1 x.2.2.1 x.2.2.2).1 rest
              from rfl, List.getElem?_cons_succ] at this
          exact this
        exact ih (display_results_live st x.1 x.2.1 x.2.2.1 x.2.2.2).1 i0 j0 ii jj
          oi oj hii0 hjj0 (by omega) hoi0 hacti hoj0 hactj

/-- C7: the live renderer (i) on its first invocation prints exactly the
static header block with one `WAITING` placeholder row per host,
independent of whatever results already exist, and moves to the
header-printed state; (ii) while header-printed, an invocation less than
`0.5` seconds after `_last_display_time` is a complete no-op; (iii) the
header-printed flag is never reset by any invocation; (iv) along any
sequence of invocations, two calls that both actually write to the screen
are at least `0.5` seconds apart (at most two actual updates per second);
and (v) an invocation arriving less than `0.5` seconds after an actual
screen update is the exact no-op (which by (ii) also leaves the render
state untouched). -/
theorem display_live_c7 :
    (∀ (st : LiveState) now hostsL names res res2, st.headerPrinted = false →
        (display_results_live st now hostsL names res).2
            = LiveOut.header (liveHeaderLines hostsL names)
          ∧ (display_results_live st now hostsL names res).1.headerPrinted = true
          ∧ (liveWaitingRows hostsL names).length = hostsL.length
          ∧ (display_results_live st now hostsL names res).2
              = (display_results_live st now hostsL names res2).2)
    ∧ (∀ (st : LiveState) now hostsL names res, st.headerPrinted = true →
        Dec.lt (Dec.sub now st.lastDisplay) Dec.half →
          display_results_live st now hostsL names res = (st, LiveOut.noop))
    ∧ (∀ (st : LiveState) now hostsL names res, st.headerPrinted = true →
        (display_results_live st now hostsL names res).1.headerPrinted = true)
    ∧ (∀ (st : LiveState) (inputs : List LiveIn) (i j : Nat) (ii jj : LiveIn)
          (oi oj : LiveOut),
        inputs[i]? = some ii → inputs[j]? = some jj → i < j →
        (runLive st inputs)[i]? = some oi → isLiveUpdate oi = true →
        (runLive st inputs)[j]? = some oj → isLiveUpdate oj = true →
        Dec.le Dec.half (Dec.sub jj.1 ii.1))
    ∧ (∀ (st : LiveState) (inputs : List LiveIn) (i j : Nat) (ii jj : LiveIn)
          (oi oj : LiveOut),
        inputs[i]? = some ii → inputs[j]? = some jj → i < j →
        (runLive st inputs)[i]? = some oi → isLiveUpdate oi = true →
        (runLive st inputs)[j]? = some oj →
        Dec.lt (Dec.sub jj.1 ii.1) Dec.half → oj = LiveOut.noop) := by
  refine ⟨?_, ?_, ?_, ?_, ?_⟩
  · intro st now hostsL names res res2 h
    unfold display_results_live
    rw [if_pos h, if_pos h]
    refine ⟨rfl, rfl, ?_, rfl⟩
    unfold liveWaitingRows sortHosts
    rw [List.length_map, List.length_insertionSort]
  · intro st now hostsL names res h hrate
    unfold display_results_live
    rw [if_neg (fun hx : st.headerPrinted = false => by rw [h] at hx; cases hx),
        if_pos hrate]
  · exact fun st now hostsL names res h => live_step_hp st now hostsL names res h
  · intro st inputs i j ii jj oi oj hii hjj hij hoi hacti hoj hactj
    rw [Dec.le_iff_val, Dec.sub_val, Dec.half_val]
    exact live_run_spacing inputs st i j ii jj oi oj hii hjj hij hoi hacti hoj hactj
  · intro st inputs i j ii jj oi oj hii hjj hij hoi hacti hoj hlt
    rw [Dec.lt_iff_val, Dec.sub_val, Dec.half_val] at hlt
    exact live_run_noop inputs st i j ii jj oi oj hii hjj hij hoi hacti hoj
      (by linarith)

theorem display_live_c7_witness :
    Dec.le Dec.half (Dec.sub ⟨1, 0⟩ ⟨0, 0⟩)
      ∧ display_results_live ⟨true, ⟨10, 0⟩, 3, []⟩ ⟨10, 0⟩ ["h"] [] []
          = (⟨true, ⟨10, 0⟩, 3, []⟩, LiveOut.noop) := by
  constructor
  · exact display_live_c7.2.2.2.1 ⟨false, ⟨0, 0⟩, 0, []⟩
      [(⟨0, 0⟩, ["h"], [], [("h", initRecord "h" 0)]),
       (⟨1, 0⟩, ["h"], [], [("h", initRecord "h" 0)])]
      0 1 (⟨0, 0⟩, ["h"], [], [("h", initRecord "h" 0)])
      (⟨1, 0⟩, ["h"], [], [("h", initRecord "h" 0)])
      (LiveOut.header (liveHeaderLines ["h"] []))
      ((runLive ⟨false, ⟨0, 0⟩, 0, []⟩
          [(⟨0, 0⟩, ["h"], [], [("h", initRecord "h" 0)]),
           (⟨1, 0⟩, ["h"], [], [("h", initRecord "h" 0)])])[1]?.getD LiveOut.noop)
      rfl rfl (by decide) rfl (by decide) (by decide) (by decide)
  · exact display_live_c7.2.1 ⟨true, ⟨10, 0⟩, 3, []⟩ ⟨10, 0⟩ ["h"] [] [] rfl (by decide)

end MultiPing
